import Mathlib

/-
Verification development for the inventory-ledger core of
allocate_medical_product.py: the Database layer over the three tables
hospitals(id, name), items(id, item_type, name, diameter, length, price, qty)
and allocations(id, hospital_id, item_id, qty, price_at_alloc, ts), with the
compound allocate transaction, the single-statement CRUD mutations, and the
reporting query.

Modelling conventions:
  - ids, quantities and timestamps are Int (SQL INT / DATETIME as a totally
    ordered stamp supplied by the caller, standing for datetime.now());
  - SQL FLOAT prices and diameters are modelled as Option Rat (NULL = none);
    no claim depends on floating-point rounding;
  - the IDENTITY(1,1) columns are modelled by next-id counters in the state;
  - mutations that can raise return DBState x Option DBError: the first
    component is the database visible to the caller afterwards (the original
    state when the statement failed and the transaction was rolled back or
    never committed), the second the raised error, none on success;
  - the FOREIGN KEY constraints declared in ensure_schema (allocations
    referencing hospitals(id) and items(id), with SQL Server's default
    ON DELETE NO ACTION) are enforced at the INSERT in allocate and at the
    DELETE in delete_hospital / delete_item.
-/

namespace MedInventory

/-- A row of the hospitals table: id INT IDENTITY, name NVARCHAR UNIQUE. -/
structure Hospital where
  id : Int
  name : String
deriving Repr, DecidableEq

/-- A row of the items table: id, item_type, name, diameter, length, price, qty. -/
structure Item where
  id : Int
  item_type : String
  name : String
  diameter : Option Rat
  length : Option Int
  price : Option Rat
  qty : Int
deriving Repr, DecidableEq

/-- A row of the allocations table: id, hospital_id, item_id, qty,
price_at_alloc, ts. -/
structure Allocation where
  id : Int
  hospital_id : Int
  item_id : Int
  qty : Int
  price_at_alloc : Option Rat
  ts : Int
deriving Repr, DecidableEq

/-- The database state: the three tables plus the IDENTITY counters. -/
structure DBState where
  hospitals : List Hospital
  items : List Item
  allocations : List Allocation
  nextHospitalId : Int
  nextItemId : Int
  nextAllocId : Int
deriving Repr, DecidableEq

/-- The errors the ledger layer can raise.  notFound is the
ValueError "Item not found" (the spec's NotFoundError), invalidQuantity the
ValueError "Quantity must be > 0" (InvalidQuantityError), insufficientStock
the ValueError "Not enough stock (available=...)" (InsufficientStockError,
carrying the available amount), and constraintViolation a database integrity
error raised by a statement that violates a FOREIGN KEY or UNIQUE
constraint. -/
inductive DBError where
  | notFound
  | invalidQuantity
  | insufficientStock (available : Int)
  | constraintViolation
deriving Repr, DecidableEq

/-- SELECT qty, price FROM items WHERE id=? : the first row whose id matches,
as in Database.allocate line 217 (cur.fetchone()). -/
def findItem (s : DBState) (item_id : Int) : Option Item :=
  s.items.find? (fun it => it.id == item_id)

/-- Whether a hospital row with the given id exists (the FOREIGN KEY check the
store performs on INSERT INTO allocations). -/
def hospitalExists (s : DBState) (hospital_id : Int) : Bool :=
  s.hospitals.any (fun h => h.id == hospital_id)

/-- Database.add_item (lines 182-190): INSERT INTO items with qty defaulted by
the Python expression "qty or 0", which replaces a falsy quantity (None) by 0
and passes any other integer, including a negative one, through unchanged. -/
def add_item (s : DBState) (item_type name : String) (diameter : Option Rat)
    (length : Option Int) (price : Option Rat) (qty : Option Int) : DBState :=
  { s with
    items := s.items ++
      [⟨s.nextItemId, item_type, name, diameter, length, price, qty.getD 0⟩],
    nextItemId := s.nextItemId + 1 }

/-- Database.update_item (lines 192-197): UPDATE items SET name=?, diameter=?,
length=?, price=? WHERE id=? ; the qty column is not touched. -/
def update_item (s : DBState) (item_id : Int) (name : String)
    (diameter : Option Rat) (length : Option Int) (price : Option Rat) : DBState :=
  { s with
    items := s.items.map (fun it =>
      if it.id == item_id then
        { it with name := name, diameter := diameter, length := length,
                  price := price }
      else it) }

/-- Database.set_stock (lines 199-204): UPDATE items SET qty=? WHERE id=? ;
no check on the sign of qty is performed at this layer. -/
def set_stock (s : DBState) (item_id : Int) (qty : Int) : DBState :=
  { s with
    items := s.items.map (fun it =>
      if it.id == item_id then { it with qty := qty } else it) }

/-- Database.delete_hospital (lines 155-160): DELETE FROM hospitals WHERE
id=? .  When an allocation row references the hospital, the FOREIGN KEY
(ON DELETE NO ACTION) rejects the DELETE: pyodbc raises, commit is never
reached, and the state is unchanged.  Otherwise the row is removed. -/
def delete_hospital (s : DBState) (hid : Int) : DBState × Option DBError :=
  if s.allocations.any (fun a => a.hospital_id == hid) then
    (s, some .constraintViolation)
  else
    ({ s with hospitals := s.hospitals.filter (fun h => !(h.id == hid)) }, none)

/-- Database.delete_item (lines 206-211): DELETE FROM items WHERE id=? , with
the same FOREIGN KEY behaviour as delete_hospital. -/
def delete_item (s : DBState) (item_id : Int) : DBState × Option DBError :=
  if s.allocations.any (fun a => a.item_id == item_id) then
    (s, some .constraintViolation)
  else
    ({ s with items := s.items.filter (fun it => !(it.id == item_id)) }, none)

/-- Database.allocate (lines 214-238).  Inside one transaction: read the
item's qty and price; raise notFound when no row matches; default the
recorded price to the current price when no override was supplied; raise
invalidQuantity when qty <= 0; raise insufficientStock (carrying the
available amount) when qty > avail; UPDATE items SET qty = qty - ? WHERE
id=? ; INSERT the allocation row, which the store rejects with an integrity
error when the hospital id satisfies no FOREIGN KEY; commit on success.  On
any raise the except branch rolls the transaction back, so the caller's
state is the original one, paired with the error. -/
def allocate (s : DBState) (item_id hospital_id : Int) (qty : Int)
    (price_at_alloc : Option Rat) (now : Int) : DBState × Option DBError :=
  match findItem s item_id with
  | none => (s, some .notFound)
  | some row =>
    let recorded := match price_at_alloc with
      | none => row.price
      | some p => some p
    if qty ≤ 0 then (s, some .invalidQuantity)
    else if row.qty < qty then (s, some (.insufficientStock row.qty))
    -- In the source the UPDATE runs first and the INSERT then either commits
    -- or is rejected by the FOREIGN KEY, rolling the UPDATE back.  The
    -- UPDATE does not touch the hospitals table the constraint consults, so
    -- the committed-or-rolled-back net effect is decided by this check.
    else if hospitalExists s hospital_id then
      ({ s with
          items := s.items.map (fun j =>
            if j.id == item_id then { j with qty := j.qty - qty } else j),
          allocations := s.allocations ++
            [⟨s.nextAllocId, hospital_id, item_id, qty, recorded, now⟩],
          nextAllocId := s.nextAllocId + 1 }, none)
    else (s, some .constraintViolation)

/-- The validation sequence of Database.allocate (lines 217-228) with the
requested quantity as an arbitrary rational, modelling a Python caller that
passes a non-integer number such as 2.5: the row lookup, the qty <= 0 check
and the qty > avail check, in source order.  Returns the raised error, or
none when control reaches the UPDATE/INSERT write path (whose SQL INT
conversion lies outside the Python source and is not modelled). -/
def allocateChecksQ (s : DBState) (item_id : Int) (qty : Rat) : Option DBError :=
  match findItem s item_id with
  | none => some .notFound
  | some row =>
    if qty ≤ 0 then some .invalidQuantity
    else if (row.qty : Rat) < qty then some (.insufficientStock row.qty)
    else none

/-- The projection produced by the report SELECT: a.id, h.name, i.item_type,
i.name, i.diameter, i.length, a.qty, a.price_at_alloc, a.ts. -/
structure ReportRow where
  id : Int
  hospital_name : String
  item_type : String
  item_name : String
  diameter : Option Rat
  length : Option Int
  qty : Int
  price_at_alloc : Option Rat
  ts : Int
deriving Repr, DecidableEq

/-- An (allocation, hospital, item) triple of the inner join
allocations a JOIN hospitals h ON a.hospital_id=h.id JOIN items i ON
a.item_id=i.id. -/
abbrev JoinedTriple := Allocation × Hospital × Item

/-- The inner join of fetch_allocations_for_report (line 251): every triple of
rows of the three tables whose join conditions hold. -/
def joinTriples (s : DBState) : List JoinedTriple :=
  s.allocations.flatMap (fun a =>
    s.hospitals.flatMap (fun h =>
      s.items.filterMap (fun i =>
        if a.hospital_id == h.id && a.item_id == i.id then some (a, h, i)
        else none)))

/-- The WHERE clauses of fetch_allocations_for_report (lines 254-264), as the
Python builds them: the h.id clause is added only when the hospital_id
argument is truthy (not None and not 0 — Python "if hospital_id:"), the ts
clauses only when the corresponding datetime argument is not None (a datetime
object is always truthy). -/
def whereClauses (hospital_id : Option Int) (date_from date_to : Option Int)
    (t : JoinedTriple) : Bool :=
  (match hospital_id with
   | none => true
   | some h => if h == 0 then true else t.2.1.id == h) &&
  (match date_from with
   | none => true
   | some d => decide (d ≤ t.1.ts)) &&
  (match date_to with
   | none => true
   | some d => decide (t.1.ts ≤ d))

/-- Modelled from the spec's words, for comparison with whereClauses: a joined
triple matches the supplied filters when its hospital is the filtered one (if
a hospital filter was supplied) and its timestamp lies within the inclusive
date range (each bound checked only when supplied). -/
def specMatches (hospital_id : Option Int) (date_from date_to : Option Int)
    (t : JoinedTriple) : Bool :=
  (match hospital_id with
   | none => true
   | some h => t.2.1.id == h) &&
  (match date_from with
   | none => true
   | some d => decide (d ≤ t.1.ts)) &&
  (match date_to with
   | none => true
   | some d => decide (t.1.ts ≤ d))

/-- The SELECT projection applied to one joined triple. -/
def projectRow (t : JoinedTriple) : ReportRow :=
  ⟨t.1.id, t.2.1.name, t.2.2.item_type, t.2.2.name, t.2.2.diameter,
   t.2.2.length, t.1.qty, t.1.price_at_alloc, t.1.ts⟩

/-- ORDER BY a.ts ASC, as a relation on joined triples. -/
abbrev tsLe (t u : JoinedTriple) : Prop := t.1.ts ≤ u.1.ts

/-- Ascending timestamps on projected report rows. -/
abbrev rowTsLe (r u : ReportRow) : Prop := r.ts ≤ u.ts

instance : IsTotal JoinedTriple tsLe := ⟨fun t u => Int.le_total t.1.ts u.1.ts⟩

instance : IsTrans JoinedTriple tsLe := ⟨fun _ _ _ h1 h2 => le_trans h1 h2⟩

/-- Database.fetch_allocations_for_report (lines 249-269): the join, the
dynamically built WHERE clauses, ORDER BY a.ts ASC, and the projection. -/
def fetch_allocations_for_report (s : DBState) (hospital_id : Option Int)
    (date_from date_to : Option Int) : List ReportRow :=
  (List.insertionSort tsLe
    ((joinTriples s).filter (whereClauses hospital_id date_from date_to))).map
    projectRow

/-- The mutating operations of the Database layer that touch the items table,
used to express reachability of states. -/
inductive Op where
  | addItem (item_type name : String) (diameter : Option Rat)
      (length : Option Int) (price : Option Rat) (qty : Option Int)
  | updateItem (item_id : Int) (name : String) (diameter : Option Rat)
      (length : Option Int) (price : Option Rat)
  | setStock (item_id : Int) (qty : Int)
  | alloc (item_id hospital_id : Int) (qty : Int) (price : Option Rat) (ts : Int)
deriving Repr

/-- Run one operation; for alloc the caller's state after the call is the
first component of allocate (commit on success, rollback on failure). -/
def applyOp (s : DBState) : Op → DBState
  | .addItem t n d l p q => add_item s t n d l p q
  | .updateItem i n d l p => update_item s i n d l p
  | .setStock i q => set_stock s i q
  | .alloc i h q p ts => (allocate s i h q p ts).1

/-- Run a sequence of operations from a state. -/
def runOps (s : DBState) (ops : List Op) : DBState :=
  ops.foldl applyOp s

/-- One allocate request against a fixed item: the target hospital, the
requested quantity, the optional override price and the timestamp. -/
structure AllocRequest where
  hospital_id : Int
  qty : Int
  price : Option Rat
  ts : Int
deriving Repr

/-- Run a sequence of allocate calls against one item, each seeing the state
the previous call left (commit on success, rollback on failure). -/
def runAllocs (s : DBState) (item_id : Int) (reqs : List AllocRequest) : DBState :=
  reqs.foldl (fun st r => (allocate st item_id r.hospital_id r.qty r.price r.ts).1) s

/-- The sum of the quantities of the allocation rows recorded for an item:
each successful allocate call inserts exactly one such row. -/
def allocatedSum (s : DBState) (item_id : Int) : Int :=
  ((s.allocations.filter (fun a => a.item_id == item_id)).map
    (fun a => a.qty)).sum

/-- The spec's running example item: "Stent A" with quantity 10 and
price 100.0. -/
def exItem : Item := ⟨1, "Stent", "Stent A", none, none, some 100, 10⟩

/-- The spec's running example hospital. -/
def exHospital : Hospital := ⟨1, "Hospital X"⟩

/-- A state holding the example hospital and item and no allocations. -/
def exState : DBState := ⟨[exHospital], [exItem], [], 2, 2, 1⟩

/-- An allocation row of 4 units of the example item to the example
hospital at timestamp 50. -/
def exAlloc : Allocation := ⟨1, 1, 1, 4, some 100, 50⟩

/-- A state in which the example allocation references the example hospital
and item. -/
def exStateAlloc : DBState := ⟨[exHospital], [exItem], [exAlloc], 2, 2, 2⟩

/-- The item found after allocating 4 of the example item: quantity 6. -/
def exItem6 : Item := ⟨1, "Stent", "Stent A", none, none, some 100, 6⟩

/-- The state after the example allocation of 4 units: quantity 6 and one
allocation row. -/
def exState6 : DBState := ⟨[exHospital], [exItem6], [⟨1, 1, 1, 4, some 100, 10⟩], 2, 2, 2⟩

/-- Finding in a mapped list commutes with find? when the map preserves the
predicate. -/
theorem find?_map_of_pres {α : Type} (l : List α) (f : α → α) (p : α → Bool)
    (hp : ∀ a, p (f a) = p a) : (l.map f).find? p = (l.find? p).map f := by
  induction l with
  | nil => rfl
  | cons a t ih =>
    by_cases h : p a = true
    · rw [List.map_cons, List.find?_cons_of_pos _ (by rw [hp]; exact h),
        List.find?_cons_of_pos _ h]
      rfl
    · rw [List.map_cons, List.find?_cons_of_neg _ (by rw [hp]; exact h),
        List.find?_cons_of_neg _ h, ih]

/-- The UPDATE of allocate changes the row the initial SELECT found into the
same row with its quantity decremented. -/
theorem find?_update_list (l : List Item) (item_id k : Int) (row : Item)
    (hfind : l.find? (fun it => it.id == item_id) = some row) :
    (l.map (fun j => if j.id == item_id then { j with qty := j.qty - k } else j)).find?
      (fun it => it.id == item_id) = some { row with qty := row.qty - k } := by
  rw [find?_map_of_pres]
  · rw [hfind]
    have hrow : row.id = item_id := by simpa using List.find?_some hfind
    simp [hrow]
  · intro a
    by_cases h : (a.id == item_id) = true <;> simp [h]

/-- Case analysis of allocate: either the call failed and the caller's state
is unchanged, or every check passed and the state carries the decremented
item row and the appended allocation row. -/
theorem allocate_cases (s : DBState) (item_id hospital_id qty : Int)
    (po : Option Rat) (now : Int) :
    (allocate s item_id hospital_id qty po now).1 = s ∨
    ∃ row, findItem s item_id = some row ∧ 0 < qty ∧ qty ≤ row.qty ∧
      hospitalExists s hospital_id = true ∧
      (allocate s item_id hospital_id qty po now).1 =
        { s with
          items := s.items.map (fun j =>
            if j.id == item_id then { j with qty := j.qty - qty } else j),
          allocations := s.allocations ++
            [⟨s.nextAllocId, hospital_id, item_id, qty,
              (match po with | none => row.price | some p => some p), now⟩],
          nextAllocId := s.nextAllocId + 1 } := by
  cases hf : findItem s item_id with
  | none => left; simp [allocate, hf]
  | some row =>
    by_cases hq : qty ≤ 0
    · left; simp [allocate, hf, hq]
    · by_cases hlt : row.qty < qty
      · left; simp [allocate, hf, hq, hlt]
      · cases hh : hospitalExists s hospital_id with
        | false => left; simp [allocate, hf, hq, hlt, hh]
        | true =>
          right
          exact ⟨row, rfl, not_le.mp hq, not_lt.mp hlt, rfl,
            by simp [allocate, hf, hq, hlt, hh]⟩

/-- Claim C1: for an item with quantity q and non-null price p, allocating
0 < k <= q units with no override price (to an existing hospital, which the
FOREIGN KEY requires) succeeds, the item's quantity becomes q - k, and exactly
one allocation row is appended, recording quantity k and price p. -/
theorem allocate_success_spec (s : DBState) (item_id hospital_id k now : Int)
    (it : Item) (p : Rat) (hfind : findItem s item_id = some it)
    (hp : it.price = some p) (hk : 0 < k) (hle : k ≤ it.qty)
    (hh : hospitalExists s hospital_id = true) :
    (allocate s item_id hospital_id k none now).2 = none ∧
    findItem (allocate s item_id hospital_id k none now).1 item_id =
      some { it with qty := it.qty - k } ∧
    (allocate s item_id hospital_id k none now).1.allocations =
      s.allocations ++ [⟨s.nextAllocId, hospital_id, item_id, k, some p, now⟩] := by
  have hq : ¬ k ≤ 0 := not_le.mpr hk
  have hlt : ¬ it.qty < k := not_lt.mpr hle
  have hstate : (allocate s item_id hospital_id k none now).1.items =
      s.items.map (fun j =>
        if j.id == item_id then { j with qty := j.qty - k } else j) := by
    simp [allocate, hfind, hq, hlt, hh]
  refine ⟨by simp [allocate, hfind, hq, hlt, hh], ?_, ?_⟩
  · show (allocate s item_id hospital_id k none now).1.items.find?
        (fun j => j.id == item_id) = some { it with qty := it.qty - k }
    rw [hstate]
    exact find?_update_list s.items item_id k it hfind
  · simp [allocate, hfind, hq, hlt, hh, hp]

/-- Witness for C1 at the spec's example: item with quantity 10 and price
100, allocate 4 with no override: success, quantity 6, one allocation row
with quantity 4 and price 100. -/
theorem allocate_success_spec_witness :
    (allocate exState 1 1 4 none 10).2 = none ∧
    findItem (allocate exState 1 1 4 none 10).1 1 =
      some { exItem with qty := exItem.qty - 4 } ∧
    (allocate exState 1 1 4 none 10).1.allocations =
      exState.allocations ++ [⟨exState.nextAllocId, 1, 1, 4, some 100, 10⟩] :=
  allocate_success_spec exState 1 1 4 10 exItem 100 (by decide) (by decide)
    (by decide) (by decide) (by decide)

/-- Claim C2: allocate commits the decrement and the insert as one atomic
unit: on any failure the caller's state is exactly the pre-call state (both
the items and the allocations table), and in particular a request exceeding
the available quantity fails with insufficientStock carrying the available
amount and changes nothing. -/
theorem allocate_atomic_rollback (s : DBState) (item_id hospital_id k : Int)
    (po : Option Rat) (now : Int) :
    ((allocate s item_id hospital_id k po now).2.isSome = true →
      (allocate s item_id hospital_id k po now).1 = s) ∧
    (∀ it, findItem s item_id = some it → 0 ≤ it.qty → it.qty < k →
      allocate s item_id hospital_id k po now =
        (s, some (.insufficientStock it.qty))) := by
  constructor
  · intro hsome
    cases hf : findItem s item_id with
    | none => simp [allocate, hf]
    | some row =>
      by_cases hq : k ≤ 0
      · simp [allocate, hf, hq]
      · by_cases hlt : row.qty < k
        · simp [allocate, hf, hq, hlt]
        · cases hh : hospitalExists s hospital_id with
          | false => simp [allocate, hf, hq, hlt, hh]
          | true => simp [allocate, hf, hq, hlt, hh] at hsome
  · intro it hf h0 hlt
    have hq : ¬ k ≤ 0 := not_le.mpr (lt_of_le_of_lt h0 hlt)
    simp [allocate, hf, hq, hlt]

/-- Witness for C2 at the spec's example: with quantity 6 left, allocating 7
fails with insufficientStock 6 and leaves the state unchanged. -/
theorem allocate_atomic_rollback_witness :
    allocate exState6 1 1 7 none 20 = (exState6, some (.insufficientStock 6)) :=
  (allocate_atomic_rollback exState6 1 1 7 none 20).2 exItem6 (by decide)
    (by decide) (by decide)

/-- Claim C4: when no item row matches the reference, allocate fails with
notFound, whatever the requested quantity (the existence check is decided by
the initial SELECT, before the quantity and stock checks), and the state is
unchanged. -/
theorem allocate_missing_item (s : DBState) (item_id hospital_id k : Int)
    (po : Option Rat) (now : Int) (h : findItem s item_id = none) :
    allocate s item_id hospital_id k po now = (s, some .notFound) := by
  simp [allocate, h]

/-- Witness for C4: a reference to an absent item id fails with notFound even
with a non-positive requested quantity. -/
theorem allocate_missing_item_witness :
    allocate exState 99 1 (-3) none 0 = (exState, some .notFound) :=
  allocate_missing_item exState 99 1 (-3) none 0 (by decide)

/-- Claim C10: allocating an existing, sufficiently stocked item to a
hospital id no hospital row bears makes the INSERT violate the FOREIGN KEY:
the error is raised to the caller and the rolled-back state is exactly the
pre-call state. -/
theorem allocate_missing_hospital (s : DBState) (item_id hospital_id k : Int)
    (po : Option Rat) (now : Int) (it : Item)
    (hfind : findItem s item_id = some it) (hk : 0 < k) (hle : k ≤ it.qty)
    (hh : hospitalExists s hospital_id = false) :
    allocate s item_id hospital_id k po now = (s, some .constraintViolation) := by
  simp [allocate, hfind, not_le.mpr hk, not_lt.mpr hle, hh]

/-- Witness for C10: allocating 4 units of the stocked example item to the
absent hospital id 99 fails with a constraint violation and changes
nothing. -/
theorem allocate_missing_hospital_witness :
    allocate exState 1 99 4 none 0 = (exState, some .constraintViolation) :=
  allocate_missing_hospital exState 1 99 4 none 0 exItem (by decide) (by decide)
    (by decide) (by decide)

/-- Claim C8: an allocation with no override records the item's price at the
instant of allocation (the override when one is supplied, else the item's
current price), and update_item never touches the allocations table, so
previously recorded price_at_alloc values survive any later price change. -/
theorem price_snapshot_frame (s : DBState) (item_id hospital_id k now : Int)
    (it : Item) (hfind : findItem s item_id = some it) (hk : 0 < k)
    (hle : k ≤ it.qty) (hh : hospitalExists s hospital_id = true) :
    (allocate s item_id hospital_id k none now).1.allocations =
      s.allocations ++ [⟨s.nextAllocId, hospital_id, item_id, k, it.price, now⟩] ∧
    (∀ q : Rat,
      (allocate s item_id hospital_id k (some q) now).1.allocations =
        s.allocations ++ [⟨s.nextAllocId, hospital_id, item_id, k, some q, now⟩]) ∧
    (∀ (s2 : DBState) (item_id2 : Int) (name2 : String) (d2 : Option Rat)
        (l2 : Option Int) (p2 : Option Rat),
      (update_item s2 item_id2 name2 d2 l2 p2).allocations = s2.allocations) := by
  have hq : ¬ k ≤ 0 := not_le.mpr hk
  have hlt : ¬ it.qty < k := not_lt.mpr hle
  exact ⟨by simp [allocate, hfind, hq, hlt, hh],
    fun q => by simp [allocate, hfind, hq, hlt, hh],
    fun s2 i n d l p => rfl⟩

/-- Witness for C8 at the example state. -/
theorem price_snapshot_frame_witness :
    (allocate exState 1 1 4 none 10).1.allocations =
      exState.allocations ++ [⟨exState.nextAllocId, 1, 1, 4, exItem.price, 10⟩] ∧
    (∀ q : Rat,
      (allocate exState 1 1 4 (some q) 10).1.allocations =
        exState.allocations ++ [⟨exState.nextAllocId, 1, 1, 4, some q, 10⟩]) ∧
    (∀ (s2 : DBState) (item_id2 : Int) (name2 : String) (d2 : Option Rat)
        (l2 : Option Int) (p2 : Option Rat),
      (update_item s2 item_id2 name2 d2 l2 p2).allocations = s2.allocations) :=
  price_snapshot_frame exState 1 1 4 10 exItem (by decide) (by decide) (by decide)
    (by decide)

/-- Counterexample to claim C3: the source checks only qty <= 0, so the
positive non-integer quantity 5/2 (denominator 2, hence not an integer)
passes the validation of an existing item without any error, instead of
failing with invalidQuantity as the claim requires. -/
theorem allocate_noninteger_quantity_cex :
    allocateChecksQ exState 1 (mkRat 5 2) = none ∧
    (0 : Rat) < mkRat 5 2 ∧ (mkRat 5 2).den ≠ 1 := by decide

/-- Claim C3 (amended): for an existing item, the allocate validation raises
invalidQuantity exactly when the requested quantity is non-positive; a
positive non-integer quantity is not rejected by this check. -/
theorem allocate_quantity_check_iff (s : DBState) (item_id : Int) (q : Rat)
    (it : Item) (h : findItem s item_id = some it) :
    allocateChecksQ s item_id q = some .invalidQuantity ↔ q ≤ 0 := by
  simp only [allocateChecksQ, h]
  by_cases hq : q ≤ 0
  · simp [hq]
  · by_cases h2 : (it.qty : Rat) < q <;> simp [hq, h2]

/-- Witness for the amended C3 at a concrete non-positive quantity. -/
theorem allocate_quantity_check_iff_witness :
    allocateChecksQ exState 1 (-1) = some .invalidQuantity ↔ (-1 : Rat) ≤ 0 :=
  allocate_quantity_check_iff exState 1 (-1) exItem (by decide)

/-- Counterexample to claim C6: set_stock performs no sign check at the
database layer; from a state whose only item has non-negative quantity,
setting stock to -5 is accepted and leaves an item quantity below zero. -/
theorem set_stock_negative_cex :
    (∀ it ∈ exState.items, 0 ≤ it.qty) ∧
    (∃ it ∈ (applyOp exState (Op.setStock 1 (-5))).items, it.qty < 0) := by
  decide

/-- Counterexample to claim C9: when an allocation row references the
hospital, the FOREIGN KEY (ON DELETE NO ACTION) rejects the DELETE, so
delete_hospital raises a constraint violation and the hospital row is not
removed, contrary to the claimed always-successful orphaning removal. -/
theorem delete_hospital_blocked_cex :
    (delete_hospital exStateAlloc 1).2 = some .constraintViolation ∧
    (delete_hospital exStateAlloc 1).1 = exStateAlloc ∧
    exStateAlloc.hospitals = [exHospital] ∧ exHospital.id = 1 := by
  decide

/-- Claim C9 (amended): delete_hospital and delete_item never delete or
modify allocation rows; when no existing allocation references the entity the
entity's row is removed, and when one does the DELETE fails with a
constraint violation, leaving the state unchanged. -/
theorem delete_ops_frame (s : DBState) (hid item_id : Int) :
    (delete_hospital s hid).1.allocations = s.allocations ∧
    (delete_item s item_id).1.allocations = s.allocations ∧
    ((∀ a ∈ s.allocations, a.hospital_id ≠ hid) →
      delete_hospital s hid =
        ({ s with hospitals := s.hospitals.filter (fun h => !(h.id == hid)) },
          none)) ∧
    ((∃ a ∈ s.allocations, a.hospital_id = hid) →
      delete_hospital s hid = (s, some .constraintViolation)) ∧
    ((∀ a ∈ s.allocations, a.item_id ≠ item_id) →
      delete_item s item_id =
        ({ s with items := s.items.filter (fun it => !(it.id == item_id)) },
          none)) ∧
    ((∃ a ∈ s.allocations, a.item_id = item_id) →
      delete_item s item_id = (s, some .constraintViolation)) := by
  refine ⟨?_, ?_, ?_, ?_, ?_, ?_⟩
  · by_cases h : s.allocations.any (fun a => a.hospital_id == hid) = true <;>
      simp [delete_hospital, h]
  · by_cases h : s.allocations.any (fun a => a.item_id == item_id) = true <;>
      simp [delete_item, h]
  · intro hnone
    have h : s.allocations.any (fun a => a.hospital_id == hid) = false := by
      rw [List.any_eq_false]
      intro a ha
      simp [hnone a ha]
    simp [delete_hospital, h]
  · rintro ⟨a, ha, haeq⟩
    have h : s.allocations.any (fun a => a.hospital_id == hid) = true := by
      rw [List.any_eq_true]
      exact ⟨a, ha, by simp [haeq]⟩
    simp [delete_hospital, h]
  · intro hnone
    have h : s.allocations.any (fun a => a.item_id == item_id) = false := by
      rw [List.any_eq_false]
      intro a ha
      simp [hnone a ha]
    simp [delete_item, h]
  · rintro ⟨a, ha, haeq⟩
    have h : s.allocations.any (fun a => a.item_id == item_id) = true := by
      rw [List.any_eq_true]
      exact ⟨a, ha, by simp [haeq]⟩
    simp [delete_item, h]

/-- Witness for the amended C9: the referenced hospital's DELETE fails and
changes nothing, while the unreferenced hospital of the allocation-free
state is removed. -/
theorem delete_ops_frame_witness :
    delete_hospital exStateAlloc 1 = (exStateAlloc, some .constraintViolation) ∧
    delete_hospital exState 1 =
      ({ exState with
          hospitals := exState.hospitals.filter (fun h => !(h.id == 1)) },
        none) :=
  ⟨(delete_ops_frame exStateAlloc 1 1).2.2.2.1 ⟨exAlloc, by decide, by decide⟩,
   (delete_ops_frame exState 1 1).2.2.1 (by decide)⟩

/-- One allocate call against a tracked item either leaves the state
unchanged, or decrements the tracked row by the (positive, in-stock) request
and grows the recorded allocation total for the item by the same amount. -/
theorem allocate_step_tracked (s : DBState) (item_id hospital_id k : Int)
    (po : Option Rat) (now : Int) (it : Item)
    (hfind : findItem s item_id = some it) :
    (allocate s item_id hospital_id k po now).1 = s ∨
    (0 < k ∧ k ≤ it.qty ∧
      findItem (allocate s item_id hospital_id k po now).1 item_id =
        some { it with qty := it.qty - k } ∧
      allocatedSum (allocate s item_id hospital_id k po now).1 item_id =
        allocatedSum s item_id + k) := by
  rcases allocate_cases s item_id hospital_id k po now with h | ⟨row, hf, hk, hle, hh, hstate⟩
  · exact Or.inl h
  · have hrow : it = row := Option.some.inj (hfind.symm.trans hf)
    subst hrow
    right
    refine ⟨hk, hle, ?_, ?_⟩
    · rw [hstate]
      exact find?_update_list s.items item_id k it hfind
    · rw [hstate]
      simp [allocatedSum, List.filter_append]

/-- Claim C5: running any sequence of allocate calls against an item whose
quantity starts non-negative leaves its quantity non-negative, and the total
quantity of the successfully recorded allocations of the run never exceeds
the item's initial quantity. -/
theorem allocate_sequence_bound (s : DBState) (item_id : Int) (it : Item)
    (hfind : findItem s item_id = some it) (h0 : 0 ≤ it.qty)
    (reqs : List AllocRequest) :
    ∃ it2, findItem (runAllocs s item_id reqs) item_id = some it2 ∧
      0 ≤ it2.qty ∧
      it2.qty + allocatedSum (runAllocs s item_id reqs) item_id =
        it.qty + allocatedSum s item_id ∧
      allocatedSum (runAllocs s item_id reqs) item_id -
        allocatedSum s item_id ≤ it.qty := by
  induction reqs generalizing s it with
  | nil =>
    refine ⟨it, hfind, h0, rfl, ?_⟩
    show allocatedSum s item_id - allocatedSum s item_id ≤ it.qty
    omega
  | cons r rs ih =>
    have hrun : runAllocs s item_id (r :: rs) =
        runAllocs (allocate s item_id r.hospital_id r.qty r.price r.ts).1
          item_id rs := rfl
    rcases allocate_step_tracked s item_id r.hospital_id r.qty r.price r.ts it
        hfind with h | ⟨hk, hle, hfind2, hsum⟩
    · rw [hrun, h]
      exact ih s it hfind h0
    · rw [hrun]
      obtain ⟨it2, ha, hb, hc, hd⟩ :=
        ih _ _ hfind2 (by show (0 : Int) ≤ it.qty - r.qty; omega)
      have hq2 : ({ it with qty := it.qty - r.qty } : Item).qty =
          it.qty - r.qty := rfl
      rw [hq2] at hc hd
      rw [hsum] at hc hd
      exact ⟨it2, ha, hb, by omega, by omega⟩

/-- Witness for C5: the example item with quantity 10 under the spec's two
requests (4 then 7, the second refused). -/
theorem allocate_sequence_bound_witness :
    ∃ it2, findItem (runAllocs exState 1 [⟨1, 4, none, 10⟩, ⟨1, 7, none, 20⟩]) 1 =
        some it2 ∧
      0 ≤ it2.qty ∧
      it2.qty + allocatedSum (runAllocs exState 1 [⟨1, 4, none, 10⟩, ⟨1, 7, none, 20⟩]) 1 =
        exItem.qty + allocatedSum exState 1 ∧
      allocatedSum (runAllocs exState 1 [⟨1, 4, none, 10⟩, ⟨1, 7, none, 20⟩]) 1 -
        allocatedSum exState 1 ≤ exItem.qty :=
  allocate_sequence_bound exState 1 exItem (by decide) (by decide)
    [⟨1, 4, none, 10⟩, ⟨1, 7, none, 20⟩]

/-- All item quantities of a state are non-negative. -/
def NonnegItems (s : DBState) : Prop := ∀ it ∈ s.items, 0 ≤ it.qty

/-- The items table is well formed: the IDENTITY column is duplicate-free and
below the next-id counter, as the store guarantees. -/
def WFItemIds (s : DBState) : Prop :=
  (s.items.map Item.id).Nodup ∧ ∀ it ∈ s.items, it.id < s.nextItemId

/-- The operation supplies only non-negative quantities where the layer
stores the argument unchecked (add_item and set_stock). -/
def nonnegOp : Op → Bool
  | .addItem _ _ _ _ _ q => decide (0 ≤ q.getD 0)
  | .setStock _ q => decide (0 ≤ q)
  | _ => true

/-- Mapping the items with an id-preserving function keeps the id column
duplicate-free and bounded. -/
theorem wf_map_pres (l : List Item) (f : Item → Item) (B : Int)
    (hid_p : ∀ j, (f j).id = j.id) (hnd : (l.map Item.id).Nodup)
    (hb : ∀ it ∈ l, it.id < B) :
    ((l.map f).map Item.id).Nodup ∧ ∀ it ∈ l.map f, it.id < B := by
  constructor
  · rw [List.map_map]
    have he : Item.id ∘ f = Item.id := funext hid_p
    rw [he]
    exact hnd
  · intro it hit
    rw [List.mem_map] at hit
    obtain ⟨j, hj, rfl⟩ := hit
    rw [hid_p]
    exact hb j hj

/-- Pointwise non-negativity transfers through map. -/
theorem nonneg_map_pres (l : List Item) (f : Item → Item)
    (h : ∀ j ∈ l, 0 ≤ (f j).qty) : ∀ it ∈ l.map f, 0 ≤ it.qty := by
  intro it hit
  rw [List.mem_map] at hit
  obtain ⟨j, hj, rfl⟩ := hit
  exact h j hj

/-- Each of the four mutating operations preserves well-formedness and, when
its own quantity argument is non-negative, the non-negativity of every item
quantity. -/
theorem applyOp_preserves (s : DBState) (op : Op) (hWF : WFItemIds s)
    (hNN : NonnegItems s) (hop : nonnegOp op = true) :
    WFItemIds (applyOp s op) ∧ NonnegItems (applyOp s op) := by
  obtain ⟨hnd, hbound⟩ := hWF
  cases op with
  | addItem t n d l p q =>
    have hq : (0 : Int) ≤ q.getD 0 := by simpa [nonnegOp] using hop
    refine ⟨⟨?_, ?_⟩, ?_⟩
    · show ((s.items ++ [_]).map Item.id).Nodup
      rw [List.map_append, List.nodup_append]
      refine ⟨hnd, by simp, ?_⟩
      intro a ha hb2
      rw [List.mem_map] at ha
      obtain ⟨j, hj, rfl⟩ := ha
      have h1 := hbound j hj
      have h2 : j.id = s.nextItemId := by simpa using hb2
      omega
    · intro it hit
      show it.id < s.nextItemId + 1
      rcases List.mem_append.mp hit with h | h
      · have := hbound it h
        omega
      · have : it.id = s.nextItemId := by
          rcases List.mem_singleton.mp h with rfl
          rfl
        omega
    · intro it hit
      rcases List.mem_append.mp hit with h | h
      · exact hNN it h
      · rcases List.mem_singleton.mp h with rfl
        exact hq
  | updateItem i n d l p =>
    have hidp : ∀ j : Item, ((if j.id == i then
        { j with name := n, diameter := d, length := l, price := p }
        else j) : Item).id = j.id := by
      intro j
      by_cases c : (j.id == i) = true <;> simp [c]
    refine ⟨⟨(wf_map_pres s.items _ s.nextItemId hidp hnd hbound).1,
      (wf_map_pres s.items _ s.nextItemId hidp hnd hbound).2⟩, ?_⟩
    refine nonneg_map_pres s.items _ ?_
    intro j hj
    by_cases c : (j.id == i) = true <;> simp [c] <;> exact hNN j hj
  | setStock i q =>
    have hq : (0 : Int) ≤ q := by simpa [nonnegOp] using hop
    have hidp : ∀ j : Item,
        ((if j.id == i then { j with qty := q } else j) : Item).id = j.id := by
      intro j
      by_cases c : (j.id == i) = true <;> simp [c]
    refine ⟨⟨(wf_map_pres s.items _ s.nextItemId hidp hnd hbound).1,
      (wf_map_pres s.items _ s.nextItemId hidp hnd hbound).2⟩, ?_⟩
    refine nonneg_map_pres s.items _ ?_
    intro j hj
    by_cases c : (j.id == i) = true
    · simpa [c] using hq
    · simpa [c] using hNN j hj
  | alloc i h q p ts =>
    show WFItemIds (allocate s i h q p ts).1 ∧ NonnegItems (allocate s i h q p ts).1
    rcases allocate_cases s i h q p ts with heq | ⟨row, hf, hk, hle, hh, hstate⟩
    · rw [heq]
      exact ⟨⟨hnd, hbound⟩, hNN⟩
    · rw [hstate]
      have hidp : ∀ j : Item, ((if j.id == i then
          { j with qty := j.qty - q } else j) : Item).id = j.id := by
        intro j
        by_cases c : (j.id == i) = true <;> simp [c]
      refine ⟨⟨(wf_map_pres s.items _ s.nextItemId hidp hnd hbound).1,
        (wf_map_pres s.items _ s.nextItemId hidp hnd hbound).2⟩, ?_⟩
      refine nonneg_map_pres s.items _ ?_
      intro j hj
      by_cases c : (j.id == i) = true
      · have hrow_mem := List.mem_of_find?_eq_some hf
        have hrow_id : row.id = i := by simpa using List.find?_some hf
        have hj_id : j.id = i := by simpa using c
        have hjr : j = row :=
          List.inj_on_of_nodup_map hnd hj hrow_mem (hj_id.trans hrow_id.symm)
        subst hjr
        have := hNN j hj
        simp [c]
        omega
      · simpa [c] using hNN j hj

/-- Runs of good operations preserve well-formedness and non-negativity. -/
theorem runOps_preserves (ops : List Op) (s : DBState) (hWF : WFItemIds s)
    (hNN : NonnegItems s) (hops : ∀ op ∈ ops, nonnegOp op = true) :
    WFItemIds (runOps s ops) ∧ NonnegItems (runOps s ops) := by
  induction ops generalizing s with
  | nil => exact ⟨hWF, hNN⟩
  | cons op rest ih =>
    have h1 := applyOp_preserves s op hWF hNN (hops op (List.mem_cons_self op rest))
    exact ih (applyOp s op) h1.1 h1.2 (fun o ho => hops o (List.mem_cons_of_mem op ho))

/-- Claim C6 (amended): from a well-formed state whose item quantities are
all non-negative, every state reachable by add_item, update_item, set_stock
and allocate keeps every item quantity non-negative, provided each add_item
and set_stock call passes a non-negative quantity — those two operations
store their argument unchecked, so a negative argument does reach the
table (counterexample). -/
theorem ops_preserve_nonneg (s : DBState) (ops : List Op) (hWF : WFItemIds s)
    (hNN : NonnegItems s) (hops : ∀ op ∈ ops, nonnegOp op = true) :
    NonnegItems (runOps s ops) :=
  (runOps_preserves ops s hWF hNN hops).2

/-- Witness for the amended C6 on a concrete run mixing all four
operations. -/
theorem ops_preserve_nonneg_witness :
    NonnegItems (runOps exState [Op.setStock 1 3, Op.alloc 1 1 2 none 5,
      Op.addItem "Stent" "Stent B" none none none (some 7),
      Op.updateItem 1 "Stent A2" none none (some 120)]) :=
  ops_preserve_nonneg exState
    [Op.setStock 1 3, Op.alloc 1 1 2 none 5,
      Op.addItem "Stent" "Stent B" none none none (some 7),
      Op.updateItem 1 "Stent A2" none none (some 120)]
    (by unfold WFItemIds; exact ⟨by decide, by decide⟩)
    (by unfold NonnegItems; decide) (by decide)

/-- For any hospital filter that names no impossible id 0 (the IDENTITY(1,1)
column starts at 1, and Python treats the argument 0 as falsy, dropping the
clause), the dynamically built WHERE clauses coincide with the spec's filter
predicate. -/
theorem whereClauses_eq_specMatches (hospital_id : Option Int)
    (date_from date_to : Option Int) (h0 : ∀ h ∈ hospital_id, h ≠ 0)
    (t : JoinedTriple) :
    whereClauses hospital_id date_from date_to t =
      specMatches hospital_id date_from date_to t := by
  cases hospital_id with
  | none => rfl
  | some h =>
    have hz : (h == 0) = false := by
      have := h0 h rfl
      simp [this]
    simp [whereClauses, specMatches, hz]

/-- Claim C7: for every state, optional hospital filter (naming a possible
hospital id, necessarily nonzero) and optional inclusive date range, the
report query returns exactly the joined allocation records matching all
supplied filters (as a multiset — a permutation of the filtered join),
ordered ascending by timestamp; filters matching nothing yield the empty
list, not an error. -/
theorem report_query_spec (s : DBState) (hospital_id : Option Int)
    (date_from date_to : Option Int) (h0 : ∀ h ∈ hospital_id, h ≠ 0) :
    (fetch_allocations_for_report s hospital_id date_from date_to).Perm
      (((joinTriples s).filter (specMatches hospital_id date_from date_to)).map
        projectRow) ∧
    List.Sorted rowTsLe
      (fetch_allocations_for_report s hospital_id date_from date_to) ∧
    ((∀ t ∈ joinTriples s,
        specMatches hospital_id date_from date_to t = false) →
      fetch_allocations_for_report s hospital_id date_from date_to = []) := by
  have hfeq : (joinTriples s).filter (whereClauses hospital_id date_from date_to) =
      (joinTriples s).filter (specMatches hospital_id date_from date_to) :=
    List.filter_congr
      (fun t _ => whereClauses_eq_specMatches hospital_id date_from date_to h0 t)
  refine ⟨?_, ?_, ?_⟩
  · unfold fetch_allocations_for_report
    rw [hfeq]
    exact List.Perm.map projectRow (List.perm_insertionSort tsLe _)
  · unfold fetch_allocations_for_report
    exact List.Pairwise.map projectRow (fun a b hab => hab)
      (List.sorted_insertionSort tsLe _)
  · intro hnone
    unfold fetch_allocations_for_report
    rw [hfeq, List.filter_eq_nil_iff.mpr (by intro a ha; simp [hnone a ha])]
    rfl

/-- Witness for C7: a date range excluding the only allocation (timestamp 50,
range 100..200) yields the empty report. -/
theorem report_query_spec_witness :
    fetch_allocations_for_report exStateAlloc none (some 100) (some 200) = [] :=
  (report_query_spec exStateAlloc none (some 100) (some 200)
    (by intro h hh; simp at hh)).2.2 (by decide)

end MedInventory
